import Mathlib

/-
Verification of the Prologis racking design tool.

Sources embedded here:
  - src/static/app.js : the wizard front end (goToStep, generateLayout).
  - src/app.js        : the bundled GMAT coach (submitSelectedAnswer, clamp).
  - The design pipeline (site resolver, layout synthesizer, BOM engine,
    pricing) lives in a backend server module that is not part of the
    repository snapshot; those components are modelled from the spec, as
    marked on each definition.

JavaScript numbers are modelled as rationals; DOM effects are abstracted
into explicit state records.
-/

/-- Decidable equality for Except values, used to evaluate embedded
fallible functions on concrete inputs. -/
instance {ε α : Type} [DecidableEq ε] [DecidableEq α] : DecidableEq (Except ε α) := fun x y =>
  match x, y with
  | .ok a, .ok b =>
    if h : a = b then isTrue (by rw [h]) else isFalse (by simp [h])
  | .error a, .error b =>
    if h : a = b then isTrue (by rw [h]) else isFalse (by simp [h])
  | .ok _, .error _ => isFalse (by simp)
  | .error _, .ok _ => isFalse (by simp)

namespace Racking

/-- Modelled from the spec: the static standard-frame-height table of the
Geometric Layout Synthesizer (section 4.3, step 1); the synthesizer itself
is in the missing backend module. Heights in inches, ascending. -/
def standardFrameHeights : List ℚ := [96, 120, 144, 168, 192, 216, 240, 264, 288, 336]

/-- Modelled from the spec: select the largest value of a list that is at
most the bound, `none` when no element qualifies. -/
def largestLE (m : ℚ) : List ℚ → Option ℚ
  | [] => none
  | x :: xs =>
    let rest := largestLE m xs
    if x ≤ m then
      some (match rest with
        | none => x
        | some b => max x b)
    else rest

/-- Modelled from the spec: the terminal error of the Geometric Layout
Synthesizer (section 4.3 and section 7). -/
inductive LayoutError where
  | layoutInfeasible
deriving DecidableEq

/-- Modelled from the spec: the default ESFR sprinkler clearance of 36
inches (section 4.2). -/
def esfrSprinklerClearanceIn : ℚ := 36

/-- Modelled from the spec: `max_frame_height = clear_height_in −
sprinkler_clearance_in` (section 4.3, step 1). -/
def maxFrameHeight (clearHeightIn sprinklerClearanceIn : ℚ) : ℚ :=
  clearHeightIn - sprinklerClearanceIn

/-- Modelled from the spec: step 1 of the Geometric Layout Synthesizer,
choosing the largest standard frame height that fits under
`max_frame_height`, failing with LayoutInfeasibleError when none does. -/
def chooseFrameHeight (m : ℚ) : Except LayoutError ℚ :=
  match largestLE m standardFrameHeights with
  | some h => .ok h
  | none => .error .layoutInfeasible

theorem largestLE_eq_none_iff (m : ℚ) (xs : List ℚ) :
    largestLE m xs = none ↔ ∀ x ∈ xs, m < x := by
  induction xs with
  | nil => simp [largestLE]
  | cons x xs ih =>
    simp only [largestLE]
    split
    · rename_i hx
      constructor
      · intro h
        cases hrest : largestLE m xs <;> simp [hrest] at h
      · intro h
        exact absurd hx (not_le.mpr (h x (by simp)))
    · rename_i hx
      rw [ih]
      simp only [List.mem_cons]
      constructor
      · intro h y hy
        rcases hy with rfl | hy
        · exact not_le.mp hx
        · exact h y hy
      · intro h y hy
        exact h y (Or.inr hy)

theorem largestLE_mem_le (m : ℚ) (xs : List ℚ) :
    ∀ b, largestLE m xs = some b → b ∈ xs ∧ b ≤ m := by
  induction xs with
  | nil => intro b h; simp [largestLE] at h
  | cons x xs ih =>
    intro b h
    simp only [largestLE] at h
    split at h
    · rename_i hx
      cases hrest : largestLE m xs with
      | none =>
        rw [hrest] at h
        simp at h
        subst h
        exact ⟨by simp, hx⟩
      | some c =>
        rw [hrest] at h
        simp at h
        obtain ⟨hc, hcm⟩ := ih c hrest
        rcases max_cases x c with ⟨hmax, _⟩ | ⟨hmax, _⟩
        · rw [hmax] at h
          subst h
          exact ⟨by simp, hx⟩
        · rw [hmax] at h
          subst h
          exact ⟨by simp [hc], hcm⟩
    · obtain ⟨hb, hbm⟩ := ih b h
      exact ⟨by simp [hb], hbm⟩

theorem largestLE_maximal (m : ℚ) (xs : List ℚ) (x : ℚ)
    (hx : x ∈ xs) (hxm : x ≤ m) :
    ∃ b, largestLE m xs = some b ∧ x ≤ b := by
  induction xs with
  | nil => simp at hx
  | cons y ys ih =>
    simp only [List.mem_cons] at hx
    rcases hx with rfl | hx
    · simp only [largestLE, if_pos hxm]
      cases hrest : largestLE m ys with
      | none => exact ⟨x, by simp, le_refl x⟩
      | some c => exact ⟨max x c, by simp, le_max_left x c⟩
    · obtain ⟨b, hb, hxb⟩ := ih hx
      simp only [largestLE]
      split
      · rw [hb]
        exact ⟨max y b, by simp, le_trans hxb (le_max_right y b)⟩
      · exact ⟨b, hb, hxb⟩

theorem largestLE_mono (m₁ m₂ : ℚ) (xs : List ℚ) (b₁ : ℚ)
    (hm : m₁ ≤ m₂) (h : largestLE m₁ xs = some b₁) :
    ∃ b₂, largestLE m₂ xs = some b₂ ∧ b₁ ≤ b₂ := by
  obtain ⟨hb₁, hb₁m⟩ := largestLE_mem_le m₁ xs b₁ h
  exact largestLE_maximal m₂ xs b₁ hb₁ (le_trans hb₁m hm)

theorem standardFrameHeights_min (x : ℚ) (hx : x ∈ standardFrameHeights) :
    (96 : ℚ) ≤ x := by
  fin_cases hx <;> norm_num

/-- Claim C2: the Geometric Layout Synthesizer sets frame height to the
largest standard height at most `clear_height_in − sprinkler_clearance_in`
and fails with LayoutInfeasibleError exactly when that bound is below 96;
with the default 36 inch ESFR clearance this reads
`clear_height_ft × 12 − 36 < 96`. -/
theorem frame_height_selection_spec (clearHeightIn sprinklerClearanceIn : ℚ) :
    (chooseFrameHeight (maxFrameHeight clearHeightIn sprinklerClearanceIn)
        = .error .layoutInfeasible
      ↔ maxFrameHeight clearHeightIn sprinklerClearanceIn < 96) ∧
    (∀ h, chooseFrameHeight (maxFrameHeight clearHeightIn sprinklerClearanceIn) = .ok h →
      h ∈ standardFrameHeights ∧
      h ≤ maxFrameHeight clearHeightIn sprinklerClearanceIn ∧
      ∀ x ∈ standardFrameHeights,
        x ≤ maxFrameHeight clearHeightIn sprinklerClearanceIn → x ≤ h) ∧
    (∀ clearHeightFt : ℚ,
      chooseFrameHeight (maxFrameHeight (clearHeightFt * 12) esfrSprinklerClearanceIn)
          = .error .layoutInfeasible
        ↔ clearHeightFt * 12 - 36 < 96) := by
  have key : ∀ m : ℚ, chooseFrameHeight m = .error .layoutInfeasible ↔ m < 96 := by
    intro m
    unfold chooseFrameHeight
    cases hsel : largestLE m standardFrameHeights with
    | none =>
      simp only [hsel]
      rw [largestLE_eq_none_iff] at hsel
      simp only [true_iff]
      exact lt_of_lt_of_le (hsel 96 (by simp [standardFrameHeights])) le_rfl
    | some b =>
      simp only [hsel]
      obtain ⟨hb, hbm⟩ := largestLE_mem_le m standardFrameHeights b hsel
      have h96 := standardFrameHeights_min b hb
      constructor
      · intro h
        exact absurd h (by simp)
      · intro h
        exact absurd (le_trans h96 hbm) (not_le.mpr h)
  refine ⟨key _, ?_, ?_⟩
  · intro h hok
    unfold chooseFrameHeight at hok
    cases hsel : largestLE (maxFrameHeight clearHeightIn sprinklerClearanceIn)
        standardFrameHeights with
    | none => rw [hsel] at hok; exact absurd hok (by simp)
    | some b =>
      rw [hsel] at hok
      simp at hok
      subst hok
      obtain ⟨hb, hbm⟩ := largestLE_mem_le _ _ _ hsel
      refine ⟨hb, hbm, ?_⟩
      intro x hx hxm
      obtain ⟨c, hc, hxc⟩ := largestLE_maximal _ standardFrameHeights x hx hxm
      rw [hsel] at hc
      simp at hc
      subst hc
      exact hxc
  · intro ft
    rw [key]
    unfold maxFrameHeight esfrSprinklerClearanceIn
    constructor <;> intro h <;> linarith

/-- Witness for C2 at a concrete building: 28 ft clear height with the
default clearance selects the 288 inch frame, and 10 ft clear height is
infeasible. -/
theorem frame_height_selection_spec_witness :
    chooseFrameHeight (maxFrameHeight (28 * 12) esfrSprinklerClearanceIn) = .ok 288 ∧
    (chooseFrameHeight (maxFrameHeight (10 * 12) esfrSprinklerClearanceIn)
        = .error .layoutInfeasible
      ↔ (10 : ℚ) * 12 - 36 < 96) := by
  constructor
  · rw [show maxFrameHeight (28 * 12) esfrSprinklerClearanceIn = (300 : ℚ) by
      norm_num [maxFrameHeight, esfrSprinklerClearanceIn]]
    decide
  · exact (frame_height_selection_spec (10 * 12) esfrSprinklerClearanceIn).2.2 10

/-- Claim C5: increasing clear height never decreases the chosen standard
frame height, everything else held equal. -/
theorem frame_height_monotone (clearFt₁ clearFt₂ clearanceIn : ℚ) (h₁ : ℚ)
    (hle : clearFt₁ ≤ clearFt₂)
    (hsel : chooseFrameHeight (maxFrameHeight (clearFt₁ * 12) clearanceIn) = .ok h₁) :
    ∃ h₂, chooseFrameHeight (maxFrameHeight (clearFt₂ * 12) clearanceIn) = .ok h₂ ∧
      h₁ ≤ h₂ := by
  unfold chooseFrameHeight at hsel ⊢
  cases hsel₁ : largestLE (maxFrameHeight (clearFt₁ * 12) clearanceIn)
      standardFrameHeights with
  | none => rw [hsel₁] at hsel; exact absurd hsel (by simp)
  | some b =>
    rw [hsel₁] at hsel
    simp at hsel
    subst hsel
    have hm : maxFrameHeight (clearFt₁ * 12) clearanceIn
        ≤ maxFrameHeight (clearFt₂ * 12) clearanceIn := by
      unfold maxFrameHeight
      linarith
    obtain ⟨b₂, hb₂, hbb⟩ := largestLE_mono _ _ standardFrameHeights _ hm hsel₁
    exact ⟨b₂, by rw [hb₂], hbb⟩

/-- Witness for C5: raising clear height from 24 ft to 32 ft moves the
chosen frame from 240 inches up to 288 inches. -/
theorem frame_height_monotone_witness :
    ∃ h₂, chooseFrameHeight (maxFrameHeight (32 * 12) esfrSprinklerClearanceIn)
        = .ok h₂ ∧ (240 : ℚ) ≤ h₂ :=
  frame_height_monotone 24 32 esfrSprinklerClearanceIn 240 (by norm_num)
    (by rw [show maxFrameHeight (24 * 12) esfrSprinklerClearanceIn = (252 : ℚ) by
          norm_num [maxFrameHeight, esfrSprinklerClearanceIn]]
        decide)

/-- Modelled from the spec: the Seismic Design Category enumeration A to F
(section 3, Site data model). -/
inductive SDC where
  | A | B | C | D | E | F
deriving DecidableEq

/-- Modelled from the spec: anchor families named in the SDC lookup table
(section 4.1): generic wedge anchors and Hilti Kwik Bolt TZ2. -/
inductive AnchorType where
  | wedge
  | kwikBoltTZ2
deriving DecidableEq

/-- Modelled from the spec: EngineeringRequirements derived from Site.SDC
(section 3). Dimensions are in inches. -/
structure EngineeringRequirements where
  anchors_per_frame : ℕ
  anchor_type : AnchorType
  anchor_diameter_in : ℚ
  anchor_length_in : ℚ
  embed_in : ℚ
deriving DecidableEq

/-- Modelled from the spec: the static SDC to EngineeringRequirements
lookup table (section 4.1), one row per SDC value. -/
def sdcAnchorTable : List (SDC × EngineeringRequirements) :=
  [(.A, ⟨2, .wedge, 1/2, 4, 2.25⟩),
   (.B, ⟨2, .wedge, 1/2, 4, 2.25⟩),
   (.C, ⟨4, .kwikBoltTZ2, 1/2, 4, 2.25⟩),
   (.D, ⟨8, .kwikBoltTZ2, 5/8, 4.5, 3.75⟩),
   (.E, ⟨8, .kwikBoltTZ2, 5/8, 4.5, 3.75⟩),
   (.F, ⟨8, .kwikBoltTZ2, 5/8, 4.5, 3.75⟩)]

/-- Modelled from the spec: the Site Parameter Resolver maps SDC to
EngineeringRequirements by looking up the one applicable row of the static
table (section 4.1). -/
def resolveEngineeringRequirements (sdc : SDC) : Option EngineeringRequirements :=
  (sdcAnchorTable.find? (fun row => decide (row.1 = sdc))).map (fun row => row.2)

/-- Claim C1: for every SDC in A to F the resolved EngineeringRequirements
match the static table: A and B give 2 wedge anchors per frame of 1/2 by 4
inches at 2.25 embed; C gives 4 Kwik Bolt TZ2 of 1/2 by 4 at 2.25; D, E
and F give 8 Kwik Bolt TZ2 of 5/8 by 4.5 at 3.75 embed. -/
theorem sdc_anchor_table_correct :
    resolveEngineeringRequirements .A = some ⟨2, .wedge, 1/2, 4, 2.25⟩ ∧
    resolveEngineeringRequirements .B = some ⟨2, .wedge, 1/2, 4, 2.25⟩ ∧
    resolveEngineeringRequirements .C = some ⟨4, .kwikBoltTZ2, 1/2, 4, 2.25⟩ ∧
    resolveEngineeringRequirements .D = some ⟨8, .kwikBoltTZ2, 5/8, 4.5, 3.75⟩ ∧
    resolveEngineeringRequirements .E = some ⟨8, .kwikBoltTZ2, 5/8, 4.5, 3.75⟩ ∧
    resolveEngineeringRequirements .F = some ⟨8, .kwikBoltTZ2, 5/8, 4.5, 3.75⟩ :=
  ⟨rfl, rfl, rfl, rfl, rfl, rfl⟩

/-- Modelled from the spec: the error taxonomy of the Pricing Model
Generator (sections 4.5 and 7). -/
inductive PricingError where
  | invalidMargin
  | validationError
deriving DecidableEq

/-- Modelled from the spec: a priced BOM line, unit cost supplied by the
caller and price derived by the generator. -/
structure PricedLineItem where
  cost : ℚ
  price : ℚ
deriving DecidableEq

/-- Modelled from the spec: the PricingModel result (sections 3 and 4.5). -/
structure PricingModel where
  lines : List PricedLineItem
  grand_total_cost : ℚ
  grand_total_price : ℚ
  profit : ℚ
deriving DecidableEq

/-- Modelled from the spec: the Pricing Model Generator (section 4.5).
Rejects margin outside the open interval (0,1) with InvalidMarginError and
any negative unit cost with ValidationError, otherwise prices each line as
cost divided by one minus margin and totals the result. -/
def generatePricing (margin : ℚ) (costs : List ℚ) : Except PricingError PricingModel :=
  if margin ≤ 0 ∨ 1 ≤ margin then .error .invalidMargin
  else if costs.any (fun c => decide (c < 0)) then .error .validationError
  else
    let lines := costs.map (fun c => { cost := c, price := c / (1 - margin) : PricedLineItem })
    let totalCost := (lines.map (fun l => l.cost)).sum
    let totalPrice := (lines.map (fun l => l.price)).sum
    .ok { lines := lines
          grand_total_cost := totalCost
          grand_total_price := totalPrice
          profit := totalPrice - totalCost }

/-- Claim C3: whenever the Pricing Model Generator produces a PricingModel
every line satisfies price = cost / (1 − margin) and the margin was inside
(0,1); any margin outside (0,1), including 1 and negatives, fails with
InvalidMarginError instead of producing a model. -/
theorem pricing_margin_spec (margin : ℚ) (costs : List ℚ) :
    (¬ (0 < margin ∧ margin < 1) →
      generatePricing margin costs = .error .invalidMargin) ∧
    (∀ pm, generatePricing margin costs = .ok pm →
      (0 < margin ∧ margin < 1) ∧
      ∀ l ∈ pm.lines, l.price = l.cost / (1 - margin)) := by
  constructor
  · intro h
    unfold generatePricing
    have hout : margin ≤ 0 ∨ 1 ≤ margin := by
      by_contra hc
      push_neg at hc
      exact h hc
    rw [if_pos hout]
  · intro pm hpm
    unfold generatePricing at hpm
    split at hpm
    · exact absurd hpm (by simp)
    · rename_i hmargin
      push_neg at hmargin
      split at hpm
      · exact absurd hpm (by simp)
      · simp only [Except.ok.injEq] at hpm
        subst hpm
        refine ⟨hmargin, ?_⟩
        intro l hl
        simp only [List.mem_map] at hl
        obtain ⟨c, _, rfl⟩ := hl
        rfl

/-- Witness for C3: a margin of 2 is rejected with InvalidMarginError, and
the model produced at margin 1/2 from a single cost-10 line prices that
line at 10 / (1 − 1/2). -/
theorem pricing_margin_spec_witness :
    generatePricing 2 [10] = .error .invalidMargin ∧
    ∀ l ∈ (PricingModel.mk [⟨10, 20⟩] 10 20 10).lines,
      l.price = l.cost / (1 - (1/2 : ℚ)) := by
  have hok : generatePricing (1/2) [10] = .ok (PricingModel.mk [⟨10, 20⟩] 10 20 10) := by
    unfold generatePricing
    norm_num
  exact ⟨(pricing_margin_spec 2 [10]).1 (by norm_num),
    fun l hl => ((pricing_margin_spec (1/2) [10]).2 _ hok).2 l hl⟩

/-- Modelled from the spec: a BayType record (section 3), a manual
engineering input merged with the synthesized geometry. Per-bay vectors
are collapsed to single per-bay counts, which is all the stated properties
depend on. -/
structure BayType where
  bay_count : ℕ
  end_frames : ℕ
  beams_per_bay : ℕ
  wiredecks_per_bay : ℕ
  pallet_supports_per_bay : ℕ
  pallet_positions_per_bay : ℕ
deriving DecidableEq

/-- Modelled from the spec: the default for the manual end-frame input of
a BayType is the row count (section 4.4). -/
def defaultEndFrames (rowCount : ℕ) : ℕ := rowCount

/-- Modelled from the spec: frames of one bay type are its bays plus its
manual end-frame count (section 4.4). -/
def frameCount (bt : BayType) : ℕ := bt.bay_count + bt.end_frames

/-- Modelled from the spec: total frames of a layout sum the frame counts
of all bay types (section 4.4). -/
def totalFrames (bts : List BayType) : ℕ := (bts.map frameCount).sum

/-- Claim C4: for any collection of BayType records the total frame count
equals the sum of all bay counts plus the sum of all end-frame counts. -/
theorem total_frames_eq (bts : List BayType) :
    totalFrames bts
      = (bts.map (fun bt => bt.bay_count)).sum
        + (bts.map (fun bt => bt.end_frames)).sum := by
  induction bts with
  | nil => rfl
  | cons bt rest ih =>
    simp only [totalFrames, frameCount, List.map_cons, List.sum_cons] at ih ⊢
    omega

/-- Modelled from the spec: provenance tag of a BOM line, derived versus
manual (sections 3 and 4.4). -/
inductive Provenance where
  | derived
  | manual
deriving DecidableEq

/-- Modelled from the spec: the BOM line categories named in section 4.4.
The last three are the manual no-formula categories. -/
inductive Category where
  | frames | beams | wiredecks | palletSupports | anchors | shims
  | bolts | nuts | guardAnchors
  | eoaGuards | rowSpacers | columnProtectors
deriving DecidableEq

/-- Modelled from the spec: a BOM line item with its provenance tag
(section 3); unit costs and manufacturer are irrelevant to the stated
quantity properties and are omitted. -/
structure BOMLineItem where
  category : Category
  quantity : ℕ
  provenance : Provenance
deriving DecidableEq

/-- Modelled from the spec: the Layout result object (section 3), reduced
to the fields the BOM engine receives. -/
structure Layout where
  frame_height_in : ℚ
  beam_levels : ℕ
  total_rows : ℕ
  bays_per_row : ℕ
  total_pallet_positions : ℕ
deriving DecidableEq

/-- Modelled from the spec: total beams summed over bay types as bay count
times beams per bay (section 4.4). -/
def totalBeams (bts : List BayType) : ℕ :=
  (bts.map (fun bt => bt.bay_count * bt.beams_per_bay)).sum

/-- Modelled from the spec: the BOM Quantity Engine (section 4.4). Derived
quantities follow the counting-model formulas; the no-formula items (end
of aisle guards, row spacers, column protectors) are emitted as plain
pass-through lines tagged manual. The quantities depend only on the bay
records and the caller inputs, never on the Layout geometry. -/
def bomEngine (layout : Layout) (bts : List BayType) (eng : EngineeringRequirements)
    (shims_per_frame : ℕ) (structural_hardware : Bool)
    (eoa_guard_count row_spacer_count column_protector_count filler_angle_count : ℕ) :
    List BOMLineItem :=
  let fr := totalFrames bts
  let tb := totalBeams bts
  [⟨.frames, fr, .derived⟩,
   ⟨.beams, tb, .derived⟩,
   ⟨.wiredecks, (bts.map (fun bt => bt.bay_count * bt.wiredecks_per_bay)).sum, .derived⟩,
   ⟨.palletSupports, (bts.map (fun bt => bt.bay_count * bt.pallet_supports_per_bay)).sum,
     .derived⟩,
   ⟨.anchors, fr * eng.anchors_per_frame, .derived⟩,
   ⟨.shims, fr * shims_per_frame, .derived⟩]
  ++ (if structural_hardware then
        [⟨.bolts, tb * 4, .derived⟩, ⟨.nuts, tb * 4, .derived⟩]
      else [])
  ++ [⟨.guardAnchors, (eoa_guard_count + filler_angle_count) * 4, .derived⟩,
      ⟨.eoaGuards, eoa_guard_count, .manual⟩,
      ⟨.rowSpacers, row_spacer_count, .manual⟩,
      ⟨.columnProtectors, column_protector_count, .manual⟩]

/-- Modelled from the spec: recogniser for lines tagged manual. -/
def isManualLine (l : BOMLineItem) : Bool :=
  decide (l.provenance = .manual)

/-- Claim C6: the BOM Quantity Engine emits each manual no-formula item
with quantity exactly the supplied count and provenance manual, and its
manual lines are identical across arbitrary changes of layout, bay types,
engineering requirements, shims, structural flag and filler count. -/
theorem manual_items_passthrough
    (layout layout₂ : Layout) (bts bts₂ : List BayType)
    (eng eng₂ : EngineeringRequirements) (spf spf₂ : ℕ) (sh sh₂ : Bool)
    (eoa rsp cp fa fa₂ : ℕ) :
    ((bomEngine layout bts eng spf sh eoa rsp cp fa).filter isManualLine
      = [⟨.eoaGuards, eoa, .manual⟩, ⟨.rowSpacers, rsp, .manual⟩,
         ⟨.columnProtectors, cp, .manual⟩]) ∧
    (BOMLineItem.mk .eoaGuards eoa .manual ∈ bomEngine layout bts eng spf sh eoa rsp cp fa) ∧
    (BOMLineItem.mk .rowSpacers rsp .manual ∈ bomEngine layout bts eng spf sh eoa rsp cp fa) ∧
    (BOMLineItem.mk .columnProtectors cp .manual
      ∈ bomEngine layout bts eng spf sh eoa rsp cp fa) ∧
    ((bomEngine layout bts eng spf sh eoa rsp cp fa).filter isManualLine
      = (bomEngine layout₂ bts₂ eng₂ spf₂ sh₂ eoa rsp cp fa₂).filter isManualLine) := by
  have hfilter : ∀ (ly : Layout) (bs : List BayType) (en : EngineeringRequirements)
      (s : ℕ) (f : Bool) (x : ℕ),
      (bomEngine ly bs en s f eoa rsp cp x).filter isManualLine
        = [⟨.eoaGuards, eoa, .manual⟩, ⟨.rowSpacers, rsp, .manual⟩,
           ⟨.columnProtectors, cp, .manual⟩] := by
    intro ly bs en s f x
    cases f <;> rfl
  refine ⟨hfilter layout bts eng spf sh fa, ?_, ?_, ?_, ?_⟩
  · simp [bomEngine]
  · simp [bomEngine]
  · simp [bomEngine]
  · rw [hfilter, hfilter]

/-- JSON values, as built by the front end with JSON.stringify. -/
inductive JVal where
  | num (q : ℚ)
  | str (s : String)
  | arr (items : List JVal)
  | obj (fields : List (String × JVal))

/-- Keys of a JSON object, in order. -/
def objKeys : JVal → List String
  | .obj fields => fields.map (fun f => f.1)
  | _ => []

/-- Field lookup in a JSON object. -/
def objField (j : JVal) (k : String) : Option JVal :=
  match j with
  | .obj fields => (fields.find? (fun f => f.1 == k)).map (fun f => f.2)
  | _ => none

/-- Embeds src/static/app.js: the form values generateLayout reads from
the DOM; none models a missing element or an unparseable number. -/
structure DesignFormInputs where
  address : Option String
  projectName : Option String
  clientName : Option String
  buildingLength : Option ℚ
  buildingWidth : Option ℚ
  clearHeight : Option ℚ
  dockSide : Option String
  numDocks : Option ℤ
  columnGridX : Option ℚ
  columnGridY : Option ℚ
  rackStyle : Option String
  rackType : Option String
  frameDepth : Option ℤ
  forkliftType : Option String
  palletSize : Option String
  stagingDepth : Option ℚ
  targetPP : Option ℤ
  newOrUsed : Option String

/-- Embeds the JavaScript idiom `parseFloat(x) || d`: missing, unparseable
or zero values fall back to the default. -/
def jsOrNum (v : Option ℚ) (d : ℚ) : ℚ :=
  match v with
  | none => d
  | some x => if x = 0 then d else x

/-- Embeds `parseInt(x) || d` on integer form fields. -/
def jsOrInt (v : Option ℤ) (d : ℤ) : ℤ :=
  match v with
  | none => d
  | some x => if x = 0 then d else x

/-- Embeds `x?.value || d` on string form fields: a missing element or an
empty string falls back to the default. -/
def jsOrStr (v : Option String) (d : String) : String :=
  match v with
  | none => d
  | some s => if s = "" then d else s

/-- Embeds src/static/app.js lines 151 to 159: the building object of the
design request. -/
def buildingPayload (f : DesignFormInputs) : JVal :=
  .obj [
    ("length_ft", .num (jsOrNum f.buildingLength 600)),
    ("width_ft", .num (jsOrNum f.buildingWidth 300)),
    ("clear_height_ft", .num (jsOrNum f.clearHeight 32)),
    ("dock_side", .str (jsOrStr f.dockSide "south")),
    ("num_dock_doors", .num ((jsOrInt f.numDocks 15 : ℤ) : ℚ)),
    ("column_grid_x_ft", .num (jsOrNum f.columnGridX 0)),
    ("column_grid_y_ft", .num (jsOrNum f.columnGridY 0))]

/-- Embeds src/static/app.js lines 160 to 169: the requirements object of
the design request. -/
def requirementsPayload (f : DesignFormInputs) : JVal :=
  .obj [
    ("rack_style", .str (jsOrStr f.rackStyle "teardrop")),
    ("rack_type", .str (jsOrStr f.rackType "selective")),
    ("frame_depth_in", .num ((jsOrInt f.frameDepth 42 : ℤ) : ℚ)),
    ("forklift_type", .str (jsOrStr f.forkliftType "reach")),
    ("pallet_size", .str (jsOrStr f.palletSize "48x40")),
    ("min_staging_depth_ft", .num (jsOrNum f.stagingDepth 50)),
    ("target_pallet_positions", .num ((jsOrInt f.targetPP 0 : ℤ) : ℚ)),
    ("new_or_used", .str (jsOrStr f.newOrUsed "new"))]

/-- Embeds src/static/app.js lines 170 to 180: the JSON body generateLayout
posts to /api/design. -/
def designRequestBody (f : DesignFormInputs) : JVal :=
  .obj [
    ("address", .str (jsOrStr f.address "")),
    ("building", buildingPayload f),
    ("requirements", requirementsPayload f),
    ("project_name", .str (jsOrStr f.projectName "")),
    ("client", .str (jsOrStr f.clientName ""))]

/-- Modelled from the spec: the layout object of the POST /api/design
response (section 6); the responding server module is not part of the
repository snapshot. -/
structure DesignLayoutResponse where
  total_pallet_positions : ℕ
  total_bays : ℕ
  total_rows : ℕ
  total_frames : ℕ
  frame_height_in : ℚ
  beam_levels : ℕ
  beam_length_in : ℚ
  utilization_pct : ℚ
  notes : List String
  warnings : List String

/-- Modelled from the spec: JSON serialization of the response layout
object (section 6). -/
def layoutResponseJson (l : DesignLayoutResponse) : JVal :=
  .obj [
    ("total_pallet_positions", .num (l.total_pallet_positions : ℚ)),
    ("total_bays", .num (l.total_bays : ℚ)),
    ("total_rows", .num (l.total_rows : ℚ)),
    ("total_frames", .num (l.total_frames : ℚ)),
    ("frame_height_in", .num l.frame_height_in),
    ("beam_levels", .num (l.beam_levels : ℚ)),
    ("beam_length_in", .num l.beam_length_in),
    ("utilization_pct", .num l.utilization_pct),
    ("notes", .arr (l.notes.map .str)),
    ("warnings", .arr (l.warnings.map .str))]

/-- Claim C7: every design request generateLayout sends to /api/design
carries exactly the top-level fields address, building, requirements,
project_name and client, with the stated seven building fields and eight
requirements fields, and the response layout object supplies the ten
documented fields. -/
theorem design_request_shape (f : DesignFormInputs) (l : DesignLayoutResponse) :
    objKeys (designRequestBody f)
      = ["address", "building", "requirements", "project_name", "client"] ∧
    objField (designRequestBody f) "building" = some (buildingPayload f) ∧
    objKeys (buildingPayload f)
      = ["length_ft", "width_ft", "clear_height_ft", "dock_side",
         "num_dock_doors", "column_grid_x_ft", "column_grid_y_ft"] ∧
    objField (designRequestBody f) "requirements" = some (requirementsPayload f) ∧
    objKeys (requirementsPayload f)
      = ["rack_style", "rack_type", "frame_depth_in", "forklift_type",
         "pallet_size", "min_staging_depth_ft", "target_pallet_positions",
         "new_or_used"] ∧
    objKeys (layoutResponseJson l)
      = ["total_pallet_positions", "total_bays", "total_rows", "total_frames",
         "frame_height_in", "beam_levels", "beam_length_in", "utilization_pct",
         "notes", "warnings"] :=
  ⟨rfl, rfl, rfl, rfl, rfl, rfl⟩

end Racking

namespace Coach

/-- Embeds src/app.js: a question record; choices text and the solution
string are irrelevant to the verified properties. The field sec holds the
JavaScript section property, renamed because section is a Lean keyword. -/
structure Question where
  sec : String
  category : String
  difficulty : ℚ
  answerIndex : ℕ

/-- Embeds src/app.js lines 241 to 251: one history record; the wall-clock
timestamp field is omitted as an external effect. -/
structure HistoryEntry where
  sec : String
  category : String
  difficulty : ℚ
  selectedIndex : ℕ
  correctIndex : ℕ
  correct : Bool
  scoreBefore : ℚ
  scoreAfter : ℚ

/-- Embeds src/app.js: the persistent state, competencies as an
association list keyed by section and category plus the attempt history. -/
structure CoachState where
  competencies : List ((String × String) × ℚ)
  history : List HistoryEntry

/-- Embeds src/app.js line 142: the initial skill of every category. -/
def baseSkill : ℚ := 55

/-- Embeds src/app.js lines 277 to 279: clamp(value, min, max). -/
def clamp (value lo hi : ℚ) : ℚ :=
  max lo (min hi value)

/-- Embeds src/app.js lines 271 to 275: computeDelta. -/
def computeDelta (isCorrect : Bool) (current targetDifficulty : ℚ) : ℚ :=
  let challengeGap := targetDifficulty - current
  let magnitude := 2 + min 8 (|challengeGap| * 0.08)
  if isCorrect then magnitude else -magnitude

/-- Embeds the read state.competencies[sec][category]. -/
def lookupCompetency (cs : List ((String × String) × ℚ)) (k : String × String) : Option ℚ :=
  (cs.find? (fun e => decide (e.1 = k))).map (fun e => e.2)

/-- Embeds the write state.competencies[sec][category] = v. -/
def setCompetency (cs : List ((String × String) × ℚ)) (k : String × String) (v : ℚ) :
    List ((String × String) × ℚ) :=
  cs.map (fun e => if e.1 = k then (k, v) else e)

/-- Embeds src/app.js lines 220 to 269: submitSelectedAnswer. The two
guard paths (no active question, no selected radio) leave the state
untouched; DOM feedback and the localStorage write are external effects
outside the state record. Every question key in the app exists in the
blueprint-initialised competency map, so the lookup never misses; the miss
branch is modelled as a no-op. -/
def submitSelectedAnswer (activeQ : Option Question) (selected : Option ℕ)
    (st : CoachState) : CoachState :=
  match activeQ with
  | none => st
  | some q =>
    match selected with
    | none => st
    | some selectedIndex =>
      match lookupCompetency st.competencies (q.sec, q.category) with
      | none => st
      | some current =>
        let isCorrect := decide (selectedIndex = q.answerIndex)
        let delta := computeDelta isCorrect current q.difficulty
        let updated := clamp (current + delta) 1 100
        { competencies := setCompetency st.competencies (q.sec, q.category) updated
          history := st.history ++
            [{ sec := q.sec
               category := q.category
               difficulty := q.difficulty
               selectedIndex := selectedIndex
               correctIndex := q.answerIndex
               correct := isCorrect
               scoreBefore := current
               scoreAfter := updated }] }

theorem clamp_mem_unit_range (v : ℚ) : 1 ≤ clamp v 1 100 ∧ clamp v 1 100 ≤ 100 :=
  ⟨le_max_left _ _, max_le (by norm_num) (min_le_left _ _)⟩

/-- Claim C8: if every competency value lies in [1,100] then after any
call to submitSelectedAnswer every competency value still lies in [1,100],
because the updated value passes through clamp before being stored. -/
theorem submit_preserves_competency_bounds (aq : Option Question) (sel : Option ℕ)
    (st : CoachState)
    (h : ∀ e ∈ st.competencies, 1 ≤ e.2 ∧ e.2 ≤ 100) :
    ∀ e ∈ (submitSelectedAnswer aq sel st).competencies, 1 ≤ e.2 ∧ e.2 ≤ 100 := by
  intro e he
  cases aq with
  | none => exact h e he
  | some q =>
    cases sel with
    | none => exact h e he
    | some i =>
      cases hq : lookupCompetency st.competencies (q.sec, q.category) with
      | none =>
        simp only [submitSelectedAnswer, hq] at he
        exact h e he
      | some current =>
        simp only [submitSelectedAnswer, hq] at he
        simp only [setCompetency, List.mem_map] at he
        obtain ⟨e₀, he₀, rfl⟩ := he
        split_ifs with hk
        · exact clamp_mem_unit_range _
        · exact h e₀ he₀

/-- Witness for C8: one answered question on a one-entry competency map
stays inside the [1,100] band. -/
theorem submit_preserves_competency_bounds_witness :
    1 ≤ clamp (55 + computeDelta (decide ((2 : ℕ) = 2)) 55 60) 1 100 ∧
    clamp (55 + computeDelta (decide ((2 : ℕ) = 2)) 55 60) 1 100 ≤ 100 := by
  have H := submit_preserves_competency_bounds
    (some ⟨"Quantitative Reasoning", "Algebra", 60, 2⟩) (some 2)
    ⟨[(("Quantitative Reasoning", "Algebra"), 55)], []⟩
    (by
      intro e he
      simp only [List.mem_singleton] at he
      subst he
      norm_num)
  exact H (("Quantitative Reasoning", "Algebra"),
    clamp (55 + computeDelta (decide ((2 : ℕ) = 2)) 55 60) 1 100)
    (List.mem_singleton_self _)

theorem lookup_setCompetency_ne (cs : List ((String × String) × ℚ))
    (k k' : String × String) (v : ℚ) (h : k' ≠ k) :
    lookupCompetency (setCompetency cs k v) k' = lookupCompetency cs k' := by
  induction cs with
  | nil => rfl
  | cons e cs ih =>
    by_cases hek : e.1 = k
    · have h₁ : ¬ ((fun x : (String × String) × ℚ => decide (x.1 = k')) (k, v) = true) := by
        simp only [decide_eq_true_eq]
        exact fun hkk => h hkk.symm
      have h₂ : ¬ ((fun x : (String × String) × ℚ => decide (x.1 = k')) e = true) := by
        simp only [decide_eq_true_eq, hek]
        exact fun hkk => h hkk.symm
      unfold lookupCompetency setCompetency
      rw [List.map_cons, if_pos hek,
        List.find?_cons_of_neg (p := fun x : (String × String) × ℚ => decide (x.1 = k')) _ h₁,
        List.find?_cons_of_neg (p := fun x : (String × String) × ℚ => decide (x.1 = k')) _ h₂]
      exact ih
    · by_cases hek' : e.1 = k'
      · have h₁ : ((fun x : (String × String) × ℚ => decide (x.1 = k')) e) = true := by
          simp only [decide_eq_true_eq]
          exact hek'
        unfold lookupCompetency setCompetency
        rw [List.map_cons, if_neg hek,
          List.find?_cons_of_pos (p := fun x : (String × String) × ℚ => decide (x.1 = k')) _ h₁,
          List.find?_cons_of_pos (p := fun x : (String × String) × ℚ => decide (x.1 = k')) _ h₁]
      · have h₁ : ¬ ((fun x : (String × String) × ℚ => decide (x.1 = k')) e = true) := by
          simp only [decide_eq_true_eq]
          exact hek'
        unfold lookupCompetency setCompetency
        rw [List.map_cons, if_neg hek,
          List.find?_cons_of_neg (p := fun x : (String × String) × ℚ => decide (x.1 = k')) _ h₁,
          List.find?_cons_of_neg (p := fun x : (String × String) × ℚ => decide (x.1 = k')) _ h₁]
        exact ih

theorem lookup_setCompetency_eq (cs : List ((String × String) × ℚ))
    (k : String × String) (v cur : ℚ)
    (h : lookupCompetency cs k = some cur) :
    lookupCompetency (setCompetency cs k v) k = some v := by
  induction cs with
  | nil => simp [lookupCompetency] at h
  | cons e cs ih =>
    by_cases hek : e.1 = k
    · have h₁ : ((fun x : (String × String) × ℚ => decide (x.1 = k)) (k, v)) = true := by
        simp
      unfold lookupCompetency setCompetency
      rw [List.map_cons, if_pos hek,
        List.find?_cons_of_pos (p := fun x : (String × String) × ℚ => decide (x.1 = k)) _ h₁]
      rfl
    · have h₁ : ¬ ((fun x : (String × String) × ℚ => decide (x.1 = k)) e = true) := by
        simp only [decide_eq_true_eq]
        exact hek
      unfold lookupCompetency at h
      rw [List.find?_cons_of_neg (p := fun x : (String × String) × ℚ => decide (x.1 = k)) _ h₁] at h
      unfold lookupCompetency setCompetency
      rw [List.map_cons, if_neg hek,
        List.find?_cons_of_neg (p := fun x : (String × String) × ℚ => decide (x.1 = k)) _ h₁]
      exact ih h

/-- Claim C9: a call to submitSelectedAnswer with an active question and a
selected answer appends exactly one history record, stores the clamped
update at the competency entry keyed by the question section and category,
and leaves the competency of every other key unchanged. -/
theorem submit_frame_effect (q : Question) (i : ℕ) (st : CoachState) (cur : ℚ)
    (h : lookupCompetency st.competencies (q.sec, q.category) = some cur) :
    (submitSelectedAnswer (some q) (some i) st).history
      = st.history ++
        [{ sec := q.sec
           category := q.category
           difficulty := q.difficulty
           selectedIndex := i
           correctIndex := q.answerIndex
           correct := decide (i = q.answerIndex)
           scoreBefore := cur
           scoreAfter := clamp (cur + computeDelta (decide (i = q.answerIndex)) cur
             q.difficulty) 1 100 }] ∧
    lookupCompetency (submitSelectedAnswer (some q) (some i) st).competencies
        (q.sec, q.category)
      = some (clamp (cur + computeDelta (decide (i = q.answerIndex)) cur q.difficulty)
          1 100) ∧
    ∀ k, k ≠ (q.sec, q.category) →
      lookupCompetency (submitSelectedAnswer (some q) (some i) st).competencies k
        = lookupCompetency st.competencies k := by
  refine ⟨?_, ?_, ?_⟩
  · simp only [submitSelectedAnswer, h]
  · simp only [submitSelectedAnswer, h]
    exact lookup_setCompetency_eq st.competencies (q.sec, q.category) _ cur h
  · intro k hk
    simp only [submitSelectedAnswer, h]
    exact lookup_setCompetency_ne st.competencies (q.sec, q.category) k _ hk

/-- Witness for C9: a concrete wrong answer touches one of two competency
entries, appends one record, and leaves the other entry at its value. -/
theorem submit_frame_effect_witness :
    (submitSelectedAnswer (some ⟨"Data Insights", "Table Analysis", 63, 1⟩) (some 0)
        ⟨[(("Data Insights", "Table Analysis"), 55),
          (("Verbal Reasoning", "Critical Reasoning"), 70)], []⟩).history
      = [{ sec := "Data Insights"
           category := "Table Analysis"
           difficulty := 63
           selectedIndex := 0
           correctIndex := 1
           correct := decide ((0 : ℕ) = 1)
           scoreBefore := 55
           scoreAfter := clamp (55 + computeDelta (decide ((0 : ℕ) = 1)) 55 63)
             1 100 }] ∧
    lookupCompetency (submitSelectedAnswer
        (some ⟨"Data Insights", "Table Analysis", 63, 1⟩) (some 0)
        ⟨[(("Data Insights", "Table Analysis"), 55),
          (("Verbal Reasoning", "Critical Reasoning"), 70)], []⟩).competencies
      ("Verbal Reasoning", "Critical Reasoning") = some 70 := by
  have H := submit_frame_effect ⟨"Data Insights", "Table Analysis", 63, 1⟩ 0
    ⟨[(("Data Insights", "Table Analysis"), 55),
      (("Verbal Reasoning", "Critical Reasoning"), 70)], []⟩ 55 (by rfl)
  refine ⟨by rw [H.1]; rfl, ?_⟩
  rw [H.2.2 ("Verbal Reasoning", "Critical Reasoning") (by decide)]
  rfl

end Coach

namespace Wizard

/-- Embeds src/static/app.js line 7: const totalSteps = 6. -/
def totalSteps : ℤ := 6

/-- Embeds src/static/app.js: the wizard state, the currentStep variable
plus the stage element currently carrying the active class. -/
structure WizardState where
  currentStep : ℤ
  activeStage : ℤ
deriving DecidableEq

/-- Embeds src/static/app.js lines 10 to 37: goToStep returns before any
mutation when the argument is below 0 or at least totalSteps, otherwise
activates the requested stage and records it as currentStep. -/
def goToStep (step : ℤ) (st : WizardState) : WizardState :=
  if step < 0 ∨ totalSteps ≤ step then st
  else { currentStep := step, activeStage := step }

/-- Embeds src/static/app.js lines 6 and 40 to 42: currentStep starts at 0
and the DOMContentLoaded handler runs goToStep(0). -/
def initialState : WizardState :=
  goToStep 0 { currentStep := 0, activeStage := 0 }

/-- The wizard state after a sequence of goToStep calls from the initial
state. -/
def runSteps (calls : List ℤ) : WizardState :=
  calls.foldl (fun st s => goToStep s st) initialState

theorem goToStep_preserves_range (s : ℤ) (st : WizardState)
    (h : 0 ≤ st.currentStep ∧ st.currentStep < 6) :
    0 ≤ (goToStep s st).currentStep ∧ (goToStep s st).currentStep < 6 := by
  unfold goToStep totalSteps
  split_ifs with hs
  · exact h
  · push_neg at hs
    exact ⟨hs.1, hs.2⟩

theorem runSteps_from (calls : List ℤ) :
    ∀ st, 0 ≤ st.currentStep ∧ st.currentStep < 6 →
      0 ≤ (calls.foldl (fun acc s => goToStep s acc) st).currentStep ∧
      (calls.foldl (fun acc s => goToStep s acc) st).currentStep < 6 := by
  induction calls with
  | nil => intro st h; exact h
  | cons c calls ih =>
    intro st h
    exact ih (goToStep c st) (goToStep_preserves_range c st h)

/-- Claim C10: goToStep returns without changing any state for every
integer argument outside 0..5, and consequently after any sequence of
goToStep calls the currentStep of the wizard remains within 0..5. -/
theorem goToStep_range_invariant (s : ℤ) (st : WizardState) (calls : List ℤ)
    (hout : s < 0 ∨ 6 ≤ s) :
    goToStep s st = st ∧
    0 ≤ (runSteps calls).currentStep ∧ (runSteps calls).currentStep < 6 := by
  constructor
  · unfold goToStep totalSteps
    exact if_pos hout
  · exact runSteps_from calls initialState (by constructor <;> decide)

/-- Witness for C10: the out-of-range call goToStep 9 is a no-op from step
3, and a mixed call sequence containing out-of-range arguments ends inside
0..5. -/
theorem goToStep_range_invariant_witness :
    goToStep 9 { currentStep := 3, activeStage := 3 }
        = { currentStep := 3, activeStage := 3 } ∧
    0 ≤ (runSteps [2, 9, -1, 5]).currentStep ∧ (runSteps [2, 9, -1, 5]).currentStep < 6 :=
  goToStep_range_invariant 9 { currentStep := 3, activeStage := 3 } [2, 9, -1, 5]
    (Or.inr (by norm_num))

end Wizard
